import Mathlib

/-!
Verification of the Configuration and Component-Registry subsystem of the
plumbum repository (src/plumbum/config.py, src/plumbum/core.py,
src/plumbum/util/__init__.py) against its natural-language specification.

The Python code is shallowly embedded: the parsed state of a ConfigParser
(its _sections dictionary) becomes an association list from section names to
association lists of option keys and string values; a Configuration store
with its recursively loaded parent stores becomes a finite tree; the global
Option descriptor registry becomes an association list from (section, key)
to a descriptor record.  File input and output, modification times and the
ConfigParser line syntax are outside the embedding: the model starts from
the parsed key-value data, which is what every claim is about.
-/


/-! ## String helpers mirroring the Python primitives used by the code -/

/-- Model of the Python method str.lower restricted to ASCII, applied
character by character (Char.toLower maps A-Z to a-z and fixes the rest). -/
def pyLower (s : String) : String :=
  ⟨s.data.map Char.toLower⟩

/-- Whitespace characters stripped by the Python method str.strip with no
argument (ASCII subset: space, tab, newline, carriage return, vertical tab,
form feed). -/
def pySpace (c : Char) : Bool :=
  c = ' ' || c = '\t' || c = '\n' || c = '\r' || c = '\x0b' || c = '\x0c'

/-- Model of the Python method str.strip with no argument: remove leading
and trailing whitespace. -/
def pyStrip (s : String) : String :=
  ⟨((s.data.dropWhile pySpace).reverse.dropWhile pySpace).reverse⟩

/-! ## Parsed configuration data (ConfigParser._sections) -/

/-- Options of one section: association list from option key to raw string
value, in parser insertion order. -/
abbrev OptionsData := List (String × String)

/-- Parsed data of one ConfigParser: association list from section name to
its options, in parser insertion order (ConfigParser._sections). -/
abbrev ParserData := List (String × OptionsData)

/-- Lookup of one option value in parsed data; none when the section or the
key is absent.  Models ConfigParser.get on the stored data (config.py line
379) and, with isSome, ConfigParser.has_option (line 378). -/
def lookupOpt (d : ParserData) (s k : String) : Option String :=
  match d.find? (fun e => e.1 = s) with
  | some e => (e.2.find? (fun o => o.1 = k)).map (·.2)
  | none => none

/-- Section names present in parsed data (ConfigParser.sections). -/
def parserSections (d : ParserData) : List String :=
  d.map (·.1)

/-- Option keys of one section of parsed data (ConfigParser.options), empty
when the section is absent. -/
def parserOptions (d : ParserData) (s : String) : List String :=
  match d.find? (fun e => e.1 = s) with
  | some e => e.2.map (·.1)
  | none => []

/-- Replace or insert one key in an options association list, keeping the
position of an existing key (dictionary update semantics). -/
def setOptInSection (opts : OptionsData) (k v : String) : OptionsData :=
  match opts with
  | [] => [(k, v)]
  | o :: rest => if o.1 = k then (k, v) :: rest else o :: setOptInSection rest k v

/-- Model of Section.set seen on the parsed data (config.py lines 476-484):
add the section when missing, then set the key in it. -/
def setOpt (d : ParserData) (s k v : String) : ParserData :=
  match d with
  | [] => [(s, [(k, v)])]
  | e :: rest =>
    if e.1 = s then (e.1, setOptInSection e.2 k v) :: rest
    else e :: setOpt rest s k v

/-- Model of Section.remove seen on the parsed data (config.py lines
486-493): delete the key from the section when the section exists. -/
def removeOpt (d : ParserData) (s k : String) : ParserData :=
  d.map (fun e => if e.1 = s then (e.1, e.2.filter (fun o => !(o.1 = k))) else e)

/-! ## Option descriptor registry -/

/-- Registered Option descriptor for one (section, key): the default already
normalized to its stored string form (Option.__init__ runs
self.default = self.normalize(default), config.py line 594, and the read
path uses option.dumps(option.default), which is the identity on an already
normalized string), and the normalization function used by save
(Option.normalize and its overrides in the subclasses). -/
structure OptDesc where
  dflt : String
  normalize : String → String

/-- The global Option registry (Option.registry, config.py line 567):
association list from (section, key) to the descriptor. -/
abbrev Registry := List ((String × String) × OptDesc)

/-- Lookup in the Option registry (Option.registry.get((section, key))). -/
def lookupReg (reg : Registry) (s k : String) : Option OptDesc :=
  (reg.find? (fun e => e.1.1 = s && e.1.2 = k)).map (·.2)

/-! ## Configuration stores with parents -/

/-- A Configuration store: its own parsed file data together with the parent
stores built from the [inherit] file directive (config.py lines 50-58 and
301-310).  Parents are recursively Configuration stores, so the whole
structure is a finite tree. -/
inductive Config where
  | mk : ParserData → List Config → Config

/-- Own parsed data of a store (self.parser._sections). -/
def Config.data : Config → ParserData
  | .mk d _ => d

/-- Parent stores of a store (self.parents). -/
def Config.parents : Config → List Config
  | .mk _ ps => ps

mutual
/-- Model of the resolution path of Section.get (config.py lines 370-395),
with the per-key Section cache elided (the cache memoizes exactly the value
this resolution produces; claim C3 models the cache explicitly).  The last
argument models the default parameter: some d is a caller-supplied default,
none is the internal _use_default sentinel used for the parent recursion.
Order, as in the code: own parsed data; first parent whose recursive get
(with the sentinel default) finds a value; then, only when the default is
not the sentinel, the registered Option default; else the default itself. -/
def sectionGet (reg : Registry) : Config → String → String → Option String → Option String
  | .mk data parents, s, k, d =>
    (lookupOpt data s k).orElse (fun _ =>
      (parentsGet reg parents s k).orElse (fun _ =>
        if d.isSome then
          ((lookupReg reg s k).map (·.dflt)).orElse (fun _ => d)
        else none))

/-- The for-loop of Section.get over self.config.parents (config.py lines
381-384): the value of the first parent that resolves the key with the
sentinel default, breaking at the first hit. -/
def parentsGet (reg : Registry) : List Config → String → String → Option String
  | [], _, _ => none
  | p :: ps, s, k =>
    (sectionGet reg p s k none).orElse (fun _ => parentsGet reg ps s k)
end

/-- Model of Configuration.get / the public Section.get with a string
default (config.py lines 80-85 and 370-395): the resolution above, falling
back to the caller default. -/
def configGet (reg : Registry) (c : Config) (s k d : String) : String :=
  (sectionGet reg c s k (some d)).getD d

mutual
/-- Model of Section.contains (config.py lines 336-342): own parser data,
then any parent recursively with defaults=False, then - only when the
defaults flag is set - the Option registry. -/
def sectionContains (reg : Registry) : Config → String → String → Bool → Bool
  | .mk data parents, s, k, defaults =>
    (lookupOpt data s k).isSome ||
      parentsContain reg parents s k ||
      (defaults && (lookupReg reg s k).isSome)

/-- The for-loop of Section.contains over the parents, each queried with
defaults=False. -/
def parentsContain (reg : Registry) : List Config → String → String → Bool
  | [], _, _ => false
  | p :: ps, s, k =>
    sectionContains reg p s k false || parentsContain reg ps s k
end

/-! ## Claim C1: resolution order of get -/

mutual
/-- Modelled from the claim wording for C1: a store (recursively) defines
(s, k) when its own parsed file data has it or some parent recursively
defines it.  Spec-side definition, to be compared with the code path. -/
def specDefines : Config → String → String → Bool
  | .mk data parents, s, k =>
    (lookupOpt data s k).isSome || specDefinesList parents s k

/-- Spec-side: some store of the list recursively defines (s, k). -/
def specDefinesList : List Config → String → String → Bool
  | [], _, _ => false
  | p :: ps, s, k => specDefines p s k || specDefinesList ps s k
end

mutual
/-- Modelled from the claim wording for C1: the value a store defines for
(s, k) - its own parsed file data first, otherwise the value of the first
parent that (recursively) defines the key.  Spec-side definition. -/
def specValue : Config → String → String → Option String
  | .mk data parents, s, k =>
    (lookupOpt data s k).orElse (fun _ => specValueList parents s k)

/-- Spec-side: the value of the first store in the list that recursively
defines (s, k). -/
def specValueList : List Config → String → String → Option String
  | [], _, _ => none
  | p :: ps, s, k =>
    if specDefines p s k then specValue p s k else specValueList ps s k
end

/-- Modelled from the claim wording for C1: the first value found in the
order own data, first recursively-defining parent, registered default,
caller default. -/
def specResolve (reg : Registry) (c : Config) (s k d : String) : String :=
  ((lookupOpt c.data s k).orElse (fun _ =>
    (specValueList c.parents s k).orElse (fun _ =>
      (lookupReg reg s k).map (·.dflt)))).getD d



/-! ## Sorting and set helpers mirroring the Python builtins sorted and set -/

/-- Code point lexicographic strict order on character lists, the order the
Python builtin sorted uses on strings. -/
def strLtChars : List Char → List Char → Bool
  | [], [] => false
  | [], _ :: _ => true
  | _ :: _, [] => false
  | a :: as, b :: bs => a.toNat < b.toNat || (a = b && strLtChars as bs)

/-- Strict code point order on strings. -/
def pyStrLt (a b : String) : Bool :=
  strLtChars a.data b.data

/-- Reflexive code point order on strings. -/
def pyStrLe (a b : String) : Bool :=
  !(pyStrLt b a)

/-- Insert a string into a list before the first larger element (stable
insertion step of a model of the Python builtin sorted on strings). -/
def insertStr (x : String) : List String → List String
  | [] => [x]
  | y :: ys => if pyStrLe x y then x :: y :: ys else y :: insertStr x ys

/-- Model of the Python builtin sorted on a list of strings. -/
def sortStr (l : List String) : List String :=
  l.foldr insertStr []

/-- Remove duplicates keeping first occurrences, skipping elements already
in the accumulator; with an empty accumulator this models the identity
collapse performed by the Python builtin set before sorted is applied. -/
def dedupStr (seen : List String) : List String → List String
  | [] => []
  | x :: xs => if seen.contains x then dedupStr seen xs else x :: dedupStr (x :: seen) xs

/-- Model of sorted(set(l)) for a list of strings. -/
def sortedSet (l : List String) : List String :=
  sortStr (dedupStr [] l)

/-- Lexicographic order on (key, value) pairs used by the Python builtin
sorted on tuples of strings. -/
def pairLe (a b : String × String) : Bool :=
  pyStrLt a.1 b.1 || (a.1 = b.1 && pyStrLe a.2 b.2)

/-- Stable insertion step for pairs. -/
def insertPair (x : String × String) : List (String × String) → List (String × String)
  | [] => [x]
  | y :: ys => if pairLe x y then x :: y :: ys else y :: insertPair x ys

/-- Model of the Python builtin sorted on a list of (key, value) string
pairs. -/
def sortPairs (l : List (String × String)) : List (String × String) :=
  l.foldr insertPair []

/-! ## Claim C2: the save selection -/

/-- One parent phase of Section.iterate (config.py lines 357-362): yield
the options of the parent iteration whose lowercased form is not yet in the
seen set, extending the seen set as yields happen.  Returns the yields and
the final seen set. -/
def dedupYield : List String → List String → (List String × List String)
  | [], seen => ([], seen)
  | o :: os, seen =>
    if seen.contains (pyLower o) then dedupYield os seen
    else
      let r := dedupYield os (pyLower o :: seen)
      (o :: r.1, r.2)

mutual
/-- Model of Section.iterate (config.py lines 346-366): own parser options
first (recording their lowercased forms), then each parent iteration with
defaults=False filtered through the seen set, then - when the defaults flag
is set - the registry options of this section not yet seen. -/
def sectionIterate (reg : Registry) : Config → String → Bool → List String
  | .mk data parents, s, defaults =>
    let own := parserOptions data s
    let pp := iterateParents reg parents s (own.map pyLower)
    own ++ pp.1 ++
      (if defaults then
        (reg.filter (fun e => e.1.1 = s && !(pp.2.contains (pyLower e.1.2)))).map (·.1.2)
      else [])

/-- The for-loop of Section.iterate over the parents, threading the seen
set. -/
def iterateParents (reg : Registry) : List Config → String → List String → (List String × List String)
  | [], _, seen => ([], seen)
  | p :: ps, s, seen =>
    let fromP := dedupYield (sectionIterate reg p s false) seen
    let rest := iterateParents reg ps s fromP.2
    (fromP.1 ++ rest.1, rest.2)
end

mutual
/-- Sections visible from a store before dedup and sort
(Configuration.sections, config.py lines 174-186): own parser sections,
those of the parents recursively with default=False, and - when the default
flag is set - the sections of the registered options. -/
def configSectionsRaw (reg : Registry) : Config → Bool → List String
  | .mk data parents, dflt =>
    parserSections data ++ sectionsListRaw reg parents ++
      (if dflt then reg.map (·.1.1) else [])

/-- The parent part of Configuration.sections. -/
def sectionsListRaw (reg : Registry) : List Config → List String
  | [] => []
  | p :: ps => configSectionsRaw reg p false ++ sectionsListRaw reg ps
end

/-- Model of Configuration.sections with its set collapse and sort
(config.py line 186 returns sorted(sections)). -/
def configSections (reg : Registry) (c : Config) : List String :=
  sortedSet (configSectionsRaw reg c true)

/-- The inner normalize closure of Configuration.save (config.py lines
201-203): apply the registered normalization when the option is declared,
else keep the value. -/
def normalizeVal (reg : Registry) (s k v : String) : String :=
  match lookupReg reg s k with
  | some o => o.normalize v
  | none => v

/-- The option loop body of Configuration.save (config.py lines 208-219):
find the first parent that has the option without defaults and normalize
its effective value into the default; keep the option when the own parser
has it and its normalized value differs from that default (an option no
parent defines is compared against the Python None and therefore always
kept). -/
def saveEntry (reg : Registry) (c : Config) (s o : String) : Option (String × String) :=
  let pdefault : Option String :=
    (c.parents.find? (fun p => sectionContains reg p s o false)).map
      (fun p => normalizeVal reg s o (configGet reg p s o ""))
  match lookupOpt c.data s o with
  | some raw =>
    let current := normalizeVal reg s o raw
    if pdefault = some current then none else some (o, current)
  | none => none

/-- The options Configuration.save keeps for one section, in iteration
order (config.py lines 207-219). -/
def saveOptionsFor (reg : Registry) (c : Config) (s : String) : List (String × String) :=
  (sectionIterate reg c s true).filterMap (saveEntry reg c s)

/-- Model of the serialization Configuration.save builds (config.py lines
195-228): for every section name in sorted order, the kept options sorted;
sections with no kept option are dropped.  The subsequent write of this
list to disk is outside the embedding. -/
def configurationSave (reg : Registry) (c : Config) : List (String × List (String × String)) :=
  (configSections reg c).filterMap (fun s =>
    let opts := sortPairs (saveOptionsFor reg c s)
    if opts.isEmpty then none else some (s, opts))

/-- Membership of one (section, key, value) entry in the serialization that
save builds. -/
def savedMem (reg : Registry) (c : Config) (s k v : String) : Prop :=
  ∃ e ∈ configurationSave reg c, e.1 = s ∧ (k, v) ∈ e.2

/-- Modelled from the amended wording for C2: the serialization keeps
exactly the own-file entries whose normalized value differs from the
normalized effective value of the nearest parent that has the key without
defaults; an entry no parent has is always kept.  Spec-side definition
giving, per (section, key), the serialized value. -/
def specSaveAmended (reg : Registry) (c : Config) (s k : String) : Option String :=
  match lookupOpt c.data s k with
  | none => none
  | some raw =>
    let cur := normalizeVal reg s k raw
    match c.parents.find? (fun p => sectionContains reg p s k false) with
    | some p => if cur = normalizeVal reg s k (configGet reg p s k "") then none else some cur
    | none => some cur

/-- Modelled from the original wording of claim C2: as the amended version,
but an entry no parent defines is omitted whenever its value equals the
registered Option default.  Spec-side definition used to exhibit the
counterexample. -/
def specSaveClaimed (reg : Registry) (c : Config) (s k : String) : Option String :=
  match lookupOpt c.data s k with
  | none => none
  | some raw =>
    let cur := normalizeVal reg s k raw
    match c.parents.find? (fun p => sectionContains reg p s k false) with
    | some p => if cur = normalizeVal reg s k (configGet reg p s k "") then none else some cur
    | none =>
      match lookupReg reg s k with
      | some o => if cur = o.dflt then none else some cur
      | none => some cur

/-! ## Claim C3: revert of in-memory state on a failed save -/

/-- Mutable state of one Configuration store: the live parser data
(self.parser._sections), the snapshot taken at the last successful read or
save (self._pristine_parser, kept by deepcopy of the parsed sections,
config.py lines 39-42 and 256), and the union of the per-Section caches
keyed by (section, key) (Section._cache, config.py line 331). -/
structure CState where
  data : ParserData
  pristine : ParserData
  cache : List ((String × String) × String)

/-- Model of one Section.get call on the mutable state (config.py lines
370-395): a cached value is returned unchanged; otherwise the value is
resolved from the own data, the parents and the registry, and cached when
found; when nothing is found the caller default is returned and nothing is
cached.  Parents and registry are fixed parameters of the run. -/
def getTracked (reg : Registry) (parents : List Config) (s k d : String)
    (st : CState) : String × CState :=
  match st.cache.find? (fun e => e.1.1 = s && e.1.2 = k) with
  | some e => (e.2, st)
  | none =>
    match (sectionGet reg (.mk st.data parents) s k none).orElse
        (fun _ => (lookupReg reg s k).map (·.dflt)) with
    | some v => (v, { st with cache := ((s, k), v) :: st.cache })
    | none => (d, st)

/-- Model of Section.set on the mutable state (config.py lines 476-484):
drop the cache entry of the key, then set the value in the parser data. -/
def setTracked (s k v : String) (st : CState) : CState :=
  { st with
    data := setOpt st.data s k v,
    cache := st.cache.filter (fun e => !(e.1.1 = s && e.1.2 = k)) }

/-- Model of the try/except of Configuration.save around the file write
(config.py lines 230-239): the Boolean argument abstracts whether _write
succeeded.  On failure the parser data is reverted to the pristine snapshot
and the error is re-raised (second component false); on success the
pristine snapshot is replaced by a copy of the parser data.  The Section
caches are not touched on either path. -/
def saveTracked (writeOk : Bool) (st : CState) : CState × Bool :=
  if writeOk then ({ st with pristine := st.data }, true)
  else ({ st with data := st.pristine }, false)

/-! ## Claim C4: set_defaults -/

/-- Model of one set_option_default step of Configuration.set_defaults
(config.py lines 279-284): when has_option(section, name, defaults=False)
is false, write the dumped default into the store through set. -/
def setOptionDefault (reg : Registry) (c : Config) (s n dflt : String) : Config :=
  if sectionContains reg c s n false then c
  else .mk (setOpt c.data s n dflt) c.parents

/-- Model of Configuration.set_defaults with no component filter (config.py
lines 273-299, else branch): fold set_option_default over the registered
options in registry order. -/
def configurationSetDefaults (reg : Registry) (c : Config) : Config :=
  reg.foldl (fun acc e => setOptionDefault reg acc e.1.1 e.1.2 e.2.dflt) c

/-! ## Claim C5: getint and getfloat error behaviour -/

/-- Run of decimal digits with single underscores allowed between digits,
continuing after an initial digit (PEP 515 syntax accepted by the Python
int and float constructors). -/
def digitRunRest : List Char → Bool
  | [] => true
  | '_' :: c :: cs => c.isDigit && digitRunRest cs
  | '_' :: [] => false
  | c :: cs => c.isDigit && digitRunRest cs

/-- Nonempty run of decimal digits with single underscores between digits. -/
def digitRun : List Char → Bool
  | [] => false
  | c :: cs => c.isDigit && digitRunRest cs

/-- Numeric value of a digit run, underscores skipped. -/
def digitsVal (cs : List Char) : Nat :=
  (cs.filter Char.isDigit).foldl (fun a c => a * 10 + (c.toNat - 48)) 0

/-- Model of the Python int constructor on a string: strip whitespace, an
optional sign, then a digit run; anything else raises ValueError, modelled
as none. -/
def pyIntParse (s : String) : Option Int :=
  match (pyStrip s).data with
  | '+' :: rest => if digitRun rest then some (digitsVal rest) else none
  | '-' :: rest => if digitRun rest then some (-(digitsVal rest : Int)) else none
  | rest => if digitRun rest then some (digitsVal rest) else none

/-- Model of the helper _getint (config.py lines 16-17): int(value or 0),
so the empty string becomes 0 and never raises; none models ValueError. -/
def pyGetint (value : String) : Option Int :=
  if value = "" then some 0 else pyIntParse value

/-- Result of a successful Python float constructor call, reduced to what
the configuration code observes: whether the parsed value is zero.  The
decimal literal is taken at face value; IEEE rounding and underflow of
extreme exponents are outside the model. -/
structure PyF where
  isZero : Bool
deriving DecidableEq

/-- Mantissa part of a float literal: optional integer digit run, optional
dot, optional fraction digit run, at least one digit present. -/
def mantissaOk (cs : List Char) : Bool :=
  match cs.findIdx? (· = '.') with
  | some i =>
    let ip := cs.take i
    let fp := cs.drop (i + 1)
    !(fp.contains '.') &&
      (ip.isEmpty || digitRun ip) && (fp.isEmpty || digitRun fp) &&
      !(ip.isEmpty && fp.isEmpty)
  | none => digitRun cs

/-- All digits of the mantissa are zero. -/
def mantissaZero (cs : List Char) : Bool :=
  (cs.filter Char.isDigit).all (· = '0')

/-- Exponent part after the e: optional sign then a digit run. -/
def exponentOk : List Char → Bool
  | '+' :: r => digitRun r
  | '-' :: r => digitRun r
  | r => digitRun r

/-- Numeric (non inf, non nan) float literal after sign removal: mantissa,
optionally followed by e and an exponent. -/
def parseNumericChars (cs : List Char) : Option PyF :=
  match cs.findIdx? (· = 'e') with
  | some i =>
    let mant := cs.take i
    let ex := cs.drop (i + 1)
    if mantissaOk mant && exponentOk ex then some ⟨mantissaZero mant⟩ else none
  | none => if mantissaOk cs then some ⟨mantissaZero cs⟩ else none

/-- Float literal after stripping and lowercasing: optional sign, then inf,
infinity, nan or a numeric literal. -/
def parseFloatChars (cs : List Char) : Option PyF :=
  let rest := match cs with
    | '+' :: r => r
    | '-' :: r => r
    | r => r
  if rest = ['i', 'n', 'f'] || rest = ['i', 'n', 'f', 'i', 'n', 'i', 't', 'y'] then some ⟨false⟩
  else if rest = ['n', 'a', 'n'] then some ⟨false⟩
  else parseNumericChars rest

/-- Model of the Python float constructor on a string: strip whitespace,
lowercase (the constructor is case-insensitive), then parse; none models
ValueError. -/
def pyFloatParse (s : String) : Option PyF :=
  parseFloatChars (pyLower (pyStrip s)).data

/-- Model of the helper _getfloat (config.py lines 20-21):
float(value or 0.0), so the empty string becomes 0.0 and never raises. -/
def pyGetfloat (value : String) : Option PyF :=
  if value = "" then some ⟨true⟩ else pyFloatParse value

/-- Exception raised when a configuration value is not valid
(ConfigurationError, config.py lines 45-47), carrying its message. -/
structure ConfigurationError where
  message : String
deriving DecidableEq

/-- Model of the Python repr of a string as used in the error messages:
the value between single quotes (escaping elided). -/
def pyRepr (v : String) : String :=
  (Char.ofNat 39).toString ++ v ++ (Char.ofNat 39).toString

/-- Message format of Section.getint on failure (config.py lines 420-422). -/
def intErrMsg (sec entry value : String) : String :=
  "[" ++ sec ++ "] " ++ entry ++ ": expected integer, got " ++ pyRepr value

/-- Message format of Section.getfloat on failure (config.py lines
436-438). -/
def floatErrMsg (sec entry value : String) : String :=
  "[" ++ sec ++ "] " ++ entry ++ ": expected float, got " ++ pyRepr value

/-- Model of Section.getint (config.py lines 408-422): resolve the value,
then _getint; on ValueError raise ConfigurationError naming the section,
the key and the repr of the value. -/
def sectionGetint (reg : Registry) (c : Config) (s k d : String) :
    Except ConfigurationError Int :=
  let value := configGet reg c s k d
  match pyGetint value with
  | some n => .ok n
  | none => .error ⟨intErrMsg s k value⟩

/-- Model of Section.getfloat (config.py lines 424-438). -/
def sectionGetfloat (reg : Registry) (c : Config) (s k d : String) :
    Except ConfigurationError PyF :=
  let value := configGet reg c s k d
  match pyGetfloat value with
  | some f => .ok f
  | none => .error ⟨floatErrMsg s k value⟩

/-! ## Claim C6: getbool truthiness -/

/-- Python value reaching as_bool through getbool: the resolved string, or
the caller default which may be a string, a bool or an int. -/
inductive PyVal where
  | pstr (s : String)
  | pbool (b : Bool)
  | pint (n : Int)
deriving DecidableEq

/-- Model of as_bool (util/__init__.py lines 9-30).  For a string: first
try the float constructor and return its truthiness; on ValueError strip
and lowercase the value and compare against the word lists; otherwise
return the default parameter of as_bool - which callers such as getbool
leave at False.  For a bool or an int, Python bool() truthiness. -/
def as_bool (value : PyVal) (default : Bool) : Bool :=
  match value with
  | .pstr s =>
    match pyFloatParse s with
    | some f => !f.isZero
    | none =>
      if pyLower (pyStrip s) = "yes" ∨ pyLower (pyStrip s) = "true"
          ∨ pyLower (pyStrip s) = "enabled" ∨ pyLower (pyStrip s) = "on" then true
      else if pyLower (pyStrip s) = "no" ∨ pyLower (pyStrip s) = "false"
          ∨ pyLower (pyStrip s) = "disabled" ∨ pyLower (pyStrip s) = "off" then false
      else default
  | .pbool b => b
  | .pint n => decide (¬ n = 0)

/-- Effective value seen by Section.getbool: the resolution of Section.get
with a non-sentinel default (own data, parents, registry default), falling
back to the caller default, which getbool passes through unconverted. -/
def configGetVal (reg : Registry) (c : Config) (s k : String) (d : PyVal) : PyVal :=
  match (sectionGet reg c s k none).orElse (fun _ => (lookupReg reg s k).map (·.dflt)) with
  | some v => .pstr v
  | none => d

/-- Model of Section.getbool (config.py lines 397-406): as_bool applied to
the effective value, with the default parameter of as_bool left at its own
False - the caller default is not forwarded to as_bool. -/
def sectionGetbool (reg : Registry) (c : Config) (s k : String) (d : PyVal) : Bool :=
  as_bool (configGetVal reg c s k d) false

/-! ## Claim C7: getlist splitting -/

/-- Leftmost separator match at the current position: the first separator
of the list (in the given order, as in a regular expression alternation of
the escaped separators) that is a nonempty prefix of the remaining
characters, returning its length. -/
def firstSepMatch (seps : List String) (cs : List Char) : Option Nat :=
  (seps.find? (fun sep => !sep.data.isEmpty && sep.data.isPrefixOf cs)).map
    (fun sep => sep.data.length)

/-- Character level split: scan left to right, cutting at every leftmost
separator match, then skipping the remaining characters of the matched
separator (second argument); models both str.split with one separator and
re.split on the alternation of several separators (config.py lines 28-31). -/
def splitAux (seps : List String) : List Char → Nat → List Char → List String
  | [], _, acc => [⟨acc.reverse⟩]
  | _ :: cs, Nat.succ m, acc => splitAux seps cs m acc
  | c :: cs, 0, acc =>
    match firstSepMatch seps (c :: cs) with
    | some n => (⟨acc.reverse⟩ : String) :: splitAux seps cs (n - 1) []
    | none => splitAux seps cs 0 (c :: acc)

/-- Split a string on a list of separators. -/
def splitAny (seps : List String) (v : String) : List String :=
  splitAux seps v.data 0 []

/-- The sep parameter of getlist: a single separator string, or a list or
tuple of separators applied as an alternation. -/
inductive SepArg where
  | single (sep : String)
  | multiple (seps : List String)

/-- The raw split step of _getlist (config.py lines 27-31): str.split for
a single separator, re.split on the alternation of the escaped separators
for a list or tuple. -/
def splitArg (sep : SepArg) (v : String) : List String :=
  match sep with
  | .single sp => splitAny [sp] v
  | .multiple sps => splitAny sps v

/-- Model of _getlist on a string value (config.py lines 24-37): an empty
value gives the empty list; otherwise split, strip every item, and unless
keep_empty is set drop the items that are empty. -/
def pyGetlist (value : String) (sep : SepArg) (keep : Bool) : List String :=
  if value = "" then []
  else
    let items := (splitArg sep value).map pyStrip
    if keep then items else items.filter (fun i => !(i = ""))

/-- Model of the public Section.getlist (config.py lines 440-451) with all
arguments explicit: _getlist applied to the effective value. -/
def sectionGetlist (reg : Registry) (c : Config) (s k d : String) (sep : SepArg)
    (keep : Bool) : List String :=
  pyGetlist (configGet reg c s k d) sep keep

/-- Section.getlist as called with its own Python default arguments
(config.py line 440): default empty, separator comma and keep_empty True. -/
def sectionGetlistDefault (reg : Registry) (c : Config) (s k : String) : List String :=
  sectionGetlist reg c s k "" (.single ",") true

/-- Configuration.getlist as called with its own Python default arguments
(config.py line 117): default empty, separator comma and keep_empty False,
delegated to Section.getlist. -/
def configurationGetlistDefault (reg : Registry) (c : Config) (s k : String) : List String :=
  sectionGetlist reg c s k "" (.single ",") false

/-! ## Claim C8: OrderedExtensionsOption ordering -/

/-- Model of OrderedExtensionsOption.__get__ (config.py lines 771-802) on
the class names: order is the stored list of class names, impls the class
names of the enabled, activated implementers of the interface in extension
point order.  The loop keeps every implementer when include_missing is set,
else only those named in the stored order; stored names matching no
implementer raise a ConfigurationError carrying the sorted missing names
(modelled by the error branch); otherwise the kept components are sorted by
the key function compare, which returns the class name - an alphabetical
sort, not the stored order. -/
def orderedExtensionsGet (order impls : List String) (includeMissing : Bool) :
    Except (List String) (List String) :=
  let components := impls.filter (fun n => includeMissing || order.contains n)
  let notFound := sortedSet (order.filter (fun n => !(impls.contains n)))
  if !notFound.isEmpty then .error notFound
  else .ok (sortStr components)

/-! ## Claim C9: component resolution failure modes -/

/-- Python exceptions crossing ComponentManager.__getitem__ (core.py lines
167-185): a TypeError from instantiation, any other error from the
component constructor or activation hook, and the PlumbumError the manager
itself raises. -/
inductive PyErr where
  | typeErr (msg : String)
  | valueErr (msg : String)
  | plumbumErr (msg : String)
deriving DecidableEq

/-- State of a ComponentManager (core.py lines 156-161): the pool of
activated components (a stored none models the Python None that
disable_component leaves behind), the memoized enablement decisions, and
the global component list ComponentMeta._components. -/
structure MgrState where
  components : List (String × Option String)
  enabled : List (String × Bool)
  registered : List String

/-- The component the pool holds for a class, flattened as
self.components.get(cls): none both when the class is absent and when the
stored entry is the Python None. -/
def storedComponent (st : MgrState) (cls : String) : Option String :=
  ((st.components.find? (fun e => e.1 = cls)).map (·.2)).join

/-- Model of ComponentManager.is_enabled (core.py lines 187-191): the
memoized decision if present, else the policy hook is_component_enabled. -/
def managerIsEnabled (policy : String → Bool) (st : MgrState) (cls : String) : Bool :=
  match (st.enabled.find? (fun e => e.1 = cls)).map (·.2) with
  | some b => b
  | none => policy cls

/-- Model of ComponentManager.__getitem__ (core.py lines 167-185).  The
instantiate parameter abstracts cls(self), which runs the activation hook
and the no-argument constructor and may raise; its class repr in the
wrapped message is reduced to the class name.  A disabled class yields
none; a held instance is returned; a manager subclass is never activated
this way; an unregistered class raises PlumbumError; a TypeError from
instantiation is wrapped into PlumbumError; any other exception
propagates unchanged. -/
def managerGetItem (policy : String → Bool) (instantiate : String → Except PyErr String)
    (isMgrSub : String → Bool) (st : MgrState) (cls : String) :
    Except PyErr (Option String) :=
  if !(managerIsEnabled policy st cls) then .ok none
  else
    match storedComponent st cls with
    | some comp => .ok (some comp)
    | none =>
      if isMgrSub cls then .ok none
      else if !(st.registered.contains cls) then
        .error (.plumbumErr ("Component \"" ++ cls ++ "\" not registered"))
      else
        match instantiate cls with
        | .ok comp => .ok (some comp)
        | .error (.typeErr e) =>
          .error (.plumbumErr ("Unable to instantiate component " ++ cls ++ " (" ++ e ++ ")"))
        | .error e => .error e

/-! ## Claim C10: reparse merges into the same parser -/

/-- Model of ConfigParser.read called on the already filled parser of a
Configuration store (config.py line 249): every (section, key, value) entry
of the file on disk is set into the existing parsed data, in file order;
nothing is removed.  parse_if_needed reuses self.parser instead of building
a fresh one, so the read merges. -/
def readMerge (d : ParserData) (file : ParserData) : ParserData :=
  file.foldl (fun acc e => e.2.foldl (fun acc2 o => setOpt acc2 e.1 o.1 o.2) acc) d

/-! ## Theorems -/

theorem parentsGet_nil (reg : Registry) (s k : String) :
    parentsGet reg [] s k = none := by
  unfold parentsGet
  rfl

theorem parentsGet_cons (reg : Registry) (p : Config) (ps : List Config) (s k : String) :
    parentsGet reg (p :: ps) s k =
      (sectionGet reg p s k none).orElse (fun _ => parentsGet reg ps s k) := by
  conv_lhs => unfold parentsGet

theorem sectionGet_mk (reg : Registry) (data : ParserData) (parents : List Config)
    (s k : String) (d : Option String) :
    sectionGet reg (.mk data parents) s k d =
      (lookupOpt data s k).orElse (fun _ =>
        (parentsGet reg parents s k).orElse (fun _ =>
          if d.isSome then
            ((lookupReg reg s k).map (·.dflt)).orElse (fun _ => d)
          else none)) := by
  conv_lhs => unfold sectionGet

theorem parentsContain_nil (reg : Registry) (s k : String) :
    parentsContain reg [] s k = false := by
  unfold parentsContain
  rfl

theorem parentsContain_cons (reg : Registry) (p : Config) (ps : List Config) (s k : String) :
    parentsContain reg (p :: ps) s k =
      (sectionContains reg p s k false || parentsContain reg ps s k) := by
  conv_lhs => unfold parentsContain

theorem sectionContains_mk (reg : Registry) (data : ParserData) (parents : List Config)
    (s k : String) (defaults : Bool) :
    sectionContains reg (.mk data parents) s k defaults =
      ((lookupOpt data s k).isSome ||
        parentsContain reg parents s k ||
        (defaults && (lookupReg reg s k).isSome)) := by
  conv_lhs => unfold sectionContains

theorem specDefines_mk (data : ParserData) (parents : List Config) (s k : String) :
    specDefines (.mk data parents) s k =
      ((lookupOpt data s k).isSome || specDefinesList parents s k) := by
  conv_lhs => unfold specDefines

theorem specDefinesList_nil (s k : String) : specDefinesList [] s k = false := by
  unfold specDefinesList
  rfl

theorem specDefinesList_cons (p : Config) (ps : List Config) (s k : String) :
    specDefinesList (p :: ps) s k = (specDefines p s k || specDefinesList ps s k) := by
  conv_lhs => unfold specDefinesList

theorem specValue_mk (data : ParserData) (parents : List Config) (s k : String) :
    specValue (.mk data parents) s k =
      (lookupOpt data s k).orElse (fun _ => specValueList parents s k) := by
  conv_lhs => unfold specValue

theorem specValueList_nil (s k : String) : specValueList [] s k = none := by
  unfold specValueList
  rfl

theorem specValueList_cons (p : Config) (ps : List Config) (s k : String) :
    specValueList (p :: ps) s k =
      (if specDefines p s k then specValue p s k else specValueList ps s k) := by
  conv_lhs => unfold specValueList

mutual
theorem specDefines_isSome (c : Config) (s k : String) :
    specDefines c s k = (specValue c s k).isSome := by
  match c with
  | .mk data parents =>
    rw [specDefines_mk, specValue_mk]
    cases h : lookupOpt data s k with
    | some v => simp [Option.orElse]
    | none =>
      simp only [Option.isSome_none, Bool.false_or, Option.orElse, Option.none_orElse]
      exact specDefinesList_isSome parents s k

theorem specDefinesList_isSome (ps : List Config) (s k : String) :
    specDefinesList ps s k = (specValueList ps s k).isSome := by
  match ps with
  | [] => rw [specDefinesList_nil, specValueList_nil] ; rfl
  | p :: rest =>
    rw [specDefinesList_cons, specValueList_cons]
    cases h : specDefines p s k with
    | true =>
      simp only [Bool.true_or, if_pos]
      rw [specDefines_isSome] at h
      exact h.symm
    | false =>
      simp only [Bool.false_or, if_neg]
      exact specDefinesList_isSome rest s k
end

mutual
theorem sectionGet_none_eq_specValue (reg : Registry) (c : Config) (s k : String) :
    sectionGet reg c s k none = specValue c s k := by
  match c with
  | .mk data parents =>
    rw [sectionGet_mk, specValue_mk]
    cases h : lookupOpt data s k with
    | some v => simp [Option.orElse]
    | none =>
      simp only [Option.orElse, Option.none_orElse, Option.isSome_none, Bool.false_eq_true,
        if_false]
      rw [parentsGet_eq_specValueList reg parents s k]
      cases specValueList parents s k <;> simp [Option.orElse]

theorem parentsGet_eq_specValueList (reg : Registry) (ps : List Config) (s k : String) :
    parentsGet reg ps s k = specValueList ps s k := by
  match ps with
  | [] => rw [parentsGet_nil, specValueList_nil]
  | p :: rest =>
    rw [parentsGet_cons, specValueList_cons]
    rw [sectionGet_none_eq_specValue reg p s k]
    cases hd : specDefines p s k with
    | true =>
      have h := specDefines_isSome p s k
      rw [hd] at h
      cases hv : specValue p s k with
      | some v => simp [Option.orElse]
      | none => rw [hv] at h ; simp at h
    | false =>
      have h := specDefines_isSome p s k
      rw [hd] at h
      cases hv : specValue p s k with
      | some v => rw [hv] at h ; simp at h
      | none => simp [Option.orElse, parentsGet_eq_specValueList reg rest s k]
end

/-- C1.  For every Configuration store, section, key and caller default,
Configuration.get (equivalently the public Section.get) returns the first
value found in this order: the own parsed file data, the value of the first
parent store that recursively defines the key, the registered Option
descriptor default, and finally the caller-supplied default; values found
at the first three layers are returned verbatim.  The left side is the
embedding of the code path (config.py lines 80-85 and 370-395), the right
side is written from the claim wording. -/
theorem C1_get_resolution_order (reg : Registry) (c : Config) (s k d : String) :
    configGet reg c s k d = specResolve reg c s k d := by
  match c with
  | .mk data parents =>
    unfold configGet specResolve
    rw [sectionGet_mk]
    simp only [Config.data, Config.parents]
    cases h : lookupOpt data s k with
    | some v => simp [Option.orElse]
    | none =>
      simp only [Option.orElse, Option.none_orElse]
      rw [parentsGet_eq_specValueList reg parents s k]
      cases hp : specValueList parents s k with
      | some v => simp [Option.orElse]
      | none =>
        simp only [Option.none_orElse, Option.isSome_some, if_pos]
        cases hr : lookupReg reg s k <;> simp [Option.orElse]

theorem mem_insertStr (a x : String) (l : List String) :
    a ∈ insertStr x l ↔ a = x ∨ a ∈ l := by
  induction l with
  | nil => simp [insertStr]
  | cons y ys ih =>
    unfold insertStr
    by_cases h : pyStrLe x y
    · simp [h]
    · simp only [if_neg h, List.mem_cons, ih]
      tauto

theorem mem_sortStr (a : String) (l : List String) : a ∈ sortStr l ↔ a ∈ l := by
  induction l with
  | nil => simp [sortStr]
  | cons x xs ih =>
    simp only [sortStr, List.foldr_cons, mem_insertStr, List.mem_cons]
    rw [show List.foldr insertStr [] xs = sortStr xs from rfl] at *
    rw [ih]

theorem mem_dedupStr (a : String) (l : List String) :
    ∀ seen, a ∈ dedupStr seen l ↔ a ∈ l ∧ ¬ a ∈ seen := by
  induction l with
  | nil => intro seen ; simp [dedupStr]
  | cons x xs ih =>
    intro seen
    unfold dedupStr
    by_cases h : x ∈ seen
    · rw [if_pos (List.elem_eq_true_of_mem h), ih]
      simp only [List.mem_cons]
      constructor
      · exact fun ⟨hm, hn⟩ => ⟨Or.inr hm, hn⟩
      · rintro ⟨rfl | hm, hn⟩
        · exact absurd h hn
        · exact ⟨hm, hn⟩
    · rw [if_neg (fun hc => h (List.mem_of_elem_eq_true hc))]
      simp only [List.mem_cons, ih (x :: seen), List.mem_cons]
      constructor
      · rintro (rfl | ⟨hm, hn⟩)
        · exact ⟨Or.inl rfl, h⟩
        · exact ⟨Or.inr hm, fun hc => hn (Or.inr hc)⟩
      · rintro ⟨rfl | hm, hn⟩
        · exact Or.inl rfl
        · by_cases hax : a = x
          · exact Or.inl hax
          · exact Or.inr ⟨hm, fun hc => hc.elim hax hn⟩

theorem mem_sortedSet (a : String) (l : List String) : a ∈ sortedSet l ↔ a ∈ l := by
  rw [sortedSet, mem_sortStr, mem_dedupStr]
  simp

theorem mem_insertPair (a x : String × String) (l : List (String × String)) :
    a ∈ insertPair x l ↔ a = x ∨ a ∈ l := by
  induction l with
  | nil => simp [insertPair]
  | cons y ys ih =>
    unfold insertPair
    by_cases h : pairLe x y
    · simp [h]
    · simp only [if_neg h, List.mem_cons, ih]
      tauto

theorem mem_sortPairs (a : String × String) (l : List (String × String)) :
    a ∈ sortPairs l ↔ a ∈ l := by
  induction l with
  | nil => simp [sortPairs]
  | cons x xs ih =>
    simp only [sortPairs, List.foldr_cons, mem_insertPair, List.mem_cons]
    rw [show List.foldr insertPair [] xs = sortPairs xs from rfl] at *
    rw [ih]

theorem sectionIterate_mk (reg : Registry) (data : ParserData) (parents : List Config)
    (s : String) (defaults : Bool) :
    sectionIterate reg (.mk data parents) s defaults =
      (let own := parserOptions data s
       let pp := iterateParents reg parents s (own.map pyLower)
       own ++ pp.1 ++
        (if defaults then
          (reg.filter (fun e => e.1.1 = s && !(pp.2.contains (pyLower e.1.2)))).map (·.1.2)
        else [])) := by
  conv_lhs => unfold sectionIterate

theorem configSectionsRaw_mk (reg : Registry) (data : ParserData) (parents : List Config)
    (dflt : Bool) :
    configSectionsRaw reg (.mk data parents) dflt =
      (parserSections data ++ sectionsListRaw reg parents ++
        (if dflt then reg.map (·.1.1) else [])) := by
  conv_lhs => unfold configSectionsRaw

theorem lookupOpt_mem_options (d : ParserData) (s k v : String)
    (h : lookupOpt d s k = some v) : k ∈ parserOptions d s := by
  unfold lookupOpt at h
  unfold parserOptions
  cases hf : d.find? (fun e => e.1 = s) with
  | none => rw [hf] at h ; exact absurd h (by simp)
  | some e =>
    rw [hf] at h
    try simp only at h
    try simp only
    cases ho : e.2.find? (fun o => o.1 = k) with
    | none => rw [ho] at h ; exact absurd h (by simp)
    | some o =>
      have hm := List.mem_of_find?_eq_some ho
      have hk := List.find?_some ho
      simp only [decide_eq_true_eq] at hk
      exact hk ▸ List.mem_map_of_mem (·.1) hm

theorem lookupOpt_mem_sections (d : ParserData) (s k v : String)
    (h : lookupOpt d s k = some v) : s ∈ parserSections d := by
  unfold lookupOpt at h
  unfold parserSections
  cases hf : d.find? (fun e => e.1 = s) with
  | none => rw [hf] at h ; exact absurd h (by simp)
  | some e =>
    have hm := List.mem_of_find?_eq_some hf
    have hk := List.find?_some hf
    simp only [decide_eq_true_eq] at hk
    exact hk ▸ List.mem_map_of_mem (·.1) hm

theorem mem_sectionIterate_of_own (reg : Registry) (c : Config) (s k : String)
    (h : k ∈ parserOptions c.data s) : k ∈ sectionIterate reg c s true := by
  match c with
  | .mk data parents =>
    rw [sectionIterate_mk]
    simp only [Config.data] at h
    simp only [List.append_assoc, List.mem_append]
    exact Or.inl h

theorem mem_configSections_of_own (reg : Registry) (c : Config) (s : String)
    (h : s ∈ parserSections c.data) : s ∈ configSections reg c := by
  match c with
  | .mk data parents =>
    rw [configSections, mem_sortedSet, configSectionsRaw_mk]
    simp only [Config.data] at h
    simp only [List.append_assoc, List.mem_append]
    exact Or.inl h

theorem saveEntry_some (reg : Registry) (c : Config) (s o k v : String)
    (h : saveEntry reg c s o = some (k, v)) :
    o = k ∧ specSaveAmended reg c s k = some v := by
  unfold saveEntry at h
  cases hl : lookupOpt c.data s o with
  | none => rw [hl] at h ; exact absurd h (by simp)
  | some raw =>
    rw [hl] at h
    try simp only at h
    by_cases hg :
        ((c.parents.find? (fun p => sectionContains reg p s o false)).map
          (fun p => normalizeVal reg s o (configGet reg p s o ""))) =
          some (normalizeVal reg s o raw)
    · rw [if_pos hg] at h ; exact absurd h (by simp)
    · rw [if_neg hg] at h
      have hok : o = k ∧ normalizeVal reg s o raw = v := by
        have := Option.some.inj h
        exact ⟨congrArg Prod.fst this, congrArg Prod.snd this⟩
      obtain ⟨rfl, hv⟩ := hok
      refine ⟨rfl, ?_⟩
      unfold specSaveAmended
      rw [hl]
      try simp only
      cases hf : c.parents.find? (fun p => sectionContains reg p s o false) with
      | none => rw [hv]
      | some p =>
        rw [hf] at hg
        simp only [Option.map] at hg
        have hne : ¬ (normalizeVal reg s o raw = normalizeVal reg s o (configGet reg p s o "")) :=
          fun q => hg (congrArg some q.symm)
        try simp only
        rw [if_neg hne, hv]

theorem saveEntry_of_spec (reg : Registry) (c : Config) (s k v : String)
    (h : specSaveAmended reg c s k = some v) :
    saveEntry reg c s k = some (k, v) := by
  unfold specSaveAmended at h
  cases hl : lookupOpt c.data s k with
  | none => rw [hl] at h ; exact absurd h (by simp)
  | some raw =>
    rw [hl] at h
    try simp only at h
    unfold saveEntry
    rw [hl]
    try simp only
    cases hf : c.parents.find? (fun p => sectionContains reg p s k false) with
    | none =>
      try rw [hf] at h
      try simp only at h
      try simp only [Option.map]
      rw [if_neg (by simp [Option.map])]
      exact congrArg (fun w => some (k, w)) (Option.some.inj h)
    | some p =>
      try rw [hf] at h
      try simp only at h
      try simp only [Option.map]
      by_cases he : normalizeVal reg s k raw = normalizeVal reg s k (configGet reg p s k "")
      · rw [if_pos he] at h ; exact absurd h (by simp)
      · rw [if_neg he] at h
        rw [if_neg (fun q => he (Option.some.inj q).symm)]
        exact congrArg (fun w => some (k, w)) (Option.some.inj h)

/-- C2 (amended).  The serialization save builds contains the entry
(section, key, value) exactly when the own parsed file has the key, value
is its normalized value, and either no parent has the key without defaults
or the nearest such parent resolves it to a different normalized value.
This is the amended claim: the original also required omission of entries
that equal the registered Option default when no parent defines them, which
the code does not do (see the counterexample). -/
theorem C2_save_minimal_diff (reg : Registry) (c : Config) (s k v : String) :
    savedMem reg c s k v ↔ specSaveAmended reg c s k = some v := by
  constructor
  · rintro ⟨e, he, hs, hkv⟩
    rw [configurationSave, List.mem_filterMap] at he
    obtain ⟨s', hs', hf⟩ := he
    by_cases hemp : (sortPairs (saveOptionsFor reg c s')).isEmpty
    · rw [if_pos hemp] at hf ; exact absurd hf (by simp)
    · rw [if_neg hemp] at hf
      have he1 : e = (s', sortPairs (saveOptionsFor reg c s')) := (Option.some.inj hf).symm
      subst he1
      simp only at hs hkv
      rw [hs] at hkv
      rw [mem_sortPairs, saveOptionsFor, List.mem_filterMap] at hkv
      obtain ⟨o, _, hentry⟩ := hkv
      obtain ⟨rfl, hspec⟩ := saveEntry_some reg c s o k v hentry
      exact hspec
  · intro h
    have hentry := saveEntry_of_spec reg c s k v h
    have hraw : ∃ raw, lookupOpt c.data s k = some raw := by
      unfold specSaveAmended at h
      cases hl : lookupOpt c.data s k with
      | none => rw [hl] at h ; exact absurd h (by simp)
      | some raw => exact ⟨raw, rfl⟩
    obtain ⟨raw, hl⟩ := hraw
    have hiter : k ∈ sectionIterate reg c s true :=
      mem_sectionIterate_of_own reg c s k (lookupOpt_mem_options c.data s k raw hl)
    have hmem : (k, v) ∈ saveOptionsFor reg c s := by
      rw [saveOptionsFor, List.mem_filterMap]
      exact ⟨k, hiter, hentry⟩
    have hmem2 : (k, v) ∈ sortPairs (saveOptionsFor reg c s) := (mem_sortPairs _ _).mpr hmem
    have hemp : ¬ (sortPairs (saveOptionsFor reg c s)).isEmpty := by
      cases hq : sortPairs (saveOptionsFor reg c s) with
      | nil => rw [hq] at hmem2 ; exact absurd hmem2 (by simp)
      | cons a as => simp
    refine ⟨(s, sortPairs (saveOptionsFor reg c s)), ?_, rfl, hmem2⟩
    rw [configurationSave, List.mem_filterMap]
    refine ⟨s, mem_configSections_of_own reg c s (lookupOpt_mem_sections c.data s k raw hl), ?_⟩
    rw [if_neg hemp]

/-- Counterexample to C2 as stated.  A store whose own file holds
[a] k = x, with no parents, while the base Option ("a", "k") is registered
with default "x" (a registered base Option carries the identity
normalization on strings): the claim requires the entry to be omitted from
the serialization because no parent defines it and its value equals the
registered default, but save keeps it - the code never compares against
registry defaults. -/
theorem C2_counterexample :
    savedMem [(("a", "k"), ⟨"x", fun v => v⟩)] (.mk [("a", [("k", "x")])] []) "a" "k" "x"
    ∧ specSaveClaimed [(("a", "k"), ⟨"x", fun v => v⟩)] (.mk [("a", [("k", "x")])] []) "a" "k"
        = none := by
  constructor
  · exact ⟨("a", [("k", "x")]), by decide, rfl, by decide⟩
  · decide

/-- C3 (amended).  On a failed save the parser data is reverted to the last
snapshot before the error is re-raised, so a subsequent read of a key with
no cached entry resolves against the snapshot; on success the snapshot
baseline becomes the saved state.  The original claim further asserted that
no subsequent read observes the unsaved mutations; that is false because
the Section caches are not invalidated by the revert (see the
counterexample). -/
theorem C3_save_revert (reg : Registry) (parents : List Config) (st : CState) (writeOk : Bool) :
    ((saveTracked writeOk st).2 = writeOk)
    ∧ (writeOk = false → (saveTracked writeOk st).1.data = st.pristine)
    ∧ (writeOk = true →
        (saveTracked writeOk st).1.pristine = st.data
        ∧ (saveTracked writeOk st).1.data = st.data)
    ∧ (writeOk = false → ∀ s k d,
        (saveTracked writeOk st).1.cache.find? (fun e => e.1.1 = s && e.1.2 = k) = none →
        (getTracked reg parents s k d (saveTracked writeOk st).1).1 =
          ((sectionGet reg (.mk st.pristine parents) s k none).orElse
            (fun _ => (lookupReg reg s k).map (·.dflt))).getD d) := by
  cases writeOk with
  | true =>
    refine ⟨rfl, by simp [saveTracked], fun _ => ⟨by simp [saveTracked], by simp [saveTracked]⟩, ?_⟩
    intro hq
    exact absurd hq (by simp)
  | false =>
    refine ⟨rfl, by simp [saveTracked], fun hq => absurd hq (by simp), ?_⟩
    intro _ s k d hmiss
    unfold getTracked
    simp only [saveTracked, if_neg (by simp : ¬ (false = true))] at hmiss ⊢
    rw [hmiss]
    cases hr : (sectionGet reg (.mk st.pristine parents) s k none).orElse
        (fun _ => (lookupReg reg s k).map (·.dflt)) with
    | some v => rfl
    | none => rfl

/-- Witness for C3: on the concrete one-section store with pristine value
old, a failed save reverts the parser data to the snapshot and an uncached
read then yields the snapshot value. -/
theorem C3_save_revert_witness :
    (saveTracked false ⟨[("a", [("k", "new")])], [("a", [("k", "old")])], []⟩).1.data
      = [("a", [("k", "old")])]
    ∧ (getTracked [] [] "a" "k" ""
        (saveTracked false ⟨[("a", [("k", "new")])], [("a", [("k", "old")])], []⟩).1).1 = "old" := by
  constructor
  · exact (C3_save_revert [] [] ⟨[("a", [("k", "new")])], [("a", [("k", "old")])], []⟩ false).2.1 rfl
  · have h := (C3_save_revert [] [] ⟨[("a", [("k", "new")])], [("a", [("k", "old")])], []⟩
        false).2.2.2 rfl "a" "k" "" (by decide)
    rw [h]
    decide

/-- Counterexample to C3 as stated.  Starting from a store whose snapshot
holds k = old: set k = new, read it once (which caches new), then fail a
save.  The parser data is reverted to old, yet the next read still returns
the cached new - the unsaved mutation is observed after the failed save,
against the claim that no subsequent read observes it. -/
theorem C3_counterexample :
    (let st1 := setTracked "a" "k" "new"
        ⟨[("a", [("k", "old")])], [("a", [("k", "old")])], []⟩
     let st2 := (getTracked [] [] "a" "k" "" st1).2
     let r := saveTracked false st2
     r.2 = false
     ∧ r.1.data = [("a", [("k", "old")])]
     ∧ (getTracked [] [] "a" "k" "" r.1).1 = "new") := by
  refine ⟨rfl, by decide, by decide⟩

theorem setOptInSection_find_self (opts : OptionsData) (k v : String) :
    (setOptInSection opts k v).find? (fun o => o.1 = k) = some (k, v) := by
  induction opts with
  | nil => simp [setOptInSection]
  | cons o rest ih =>
    unfold setOptInSection
    by_cases h : o.1 = k
    · simp [h]
    · rw [if_neg h]
      rw [List.find?_cons_of_neg _ (by simp [h])]
      exact ih

theorem setOptInSection_find_other (opts : OptionsData) (k v q : String) (hne : ¬ q = k) :
    (setOptInSection opts k v).find? (fun o => o.1 = q) = opts.find? (fun o => o.1 = q) := by
  have hkq : ¬ k = q := fun w => hne w.symm
  induction opts with
  | nil => simp [setOptInSection, hkq]
  | cons o rest ih =>
    unfold setOptInSection
    by_cases h : o.1 = k
    · rw [if_pos h]
      have ho : ¬ o.1 = q := fun w => hkq (by rw [← h] ; exact w)
      rw [List.find?_cons_of_neg _ (by simp [hkq]),
        List.find?_cons_of_neg _ (by simp [ho])]
    · rw [if_neg h]
      by_cases hq : o.1 = q
      · rw [List.find?_cons_of_pos _ (by simp [hq]), List.find?_cons_of_pos _ (by simp [hq])]
      · rw [List.find?_cons_of_neg _ (by simp [hq]), List.find?_cons_of_neg _ (by simp [hq])]
        exact ih

theorem lookupOpt_setOpt_self (d : ParserData) (s k v : String) :
    lookupOpt (setOpt d s k v) s k = some v := by
  induction d with
  | nil =>
    simp [setOpt, lookupOpt]
  | cons e rest ih =>
    unfold setOpt
    by_cases h : e.1 = s
    · rw [if_pos h]
      unfold lookupOpt
      rw [List.find?_cons_of_pos _ (by simp [h])]
      simp only
      rw [setOptInSection_find_self]
      rfl
    · rw [if_neg h]
      unfold lookupOpt
      rw [List.find?_cons_of_neg _ (by simp [h])]
      unfold lookupOpt at ih
      exact ih

theorem lookupOpt_setOpt_other (d : ParserData) (s k v s2 k2 : String)
    (hne : ¬ (s2 = s ∧ k2 = k)) :
    lookupOpt (setOpt d s k v) s2 k2 = lookupOpt d s2 k2 := by
  induction d with
  | nil =>
    by_cases hs : s2 = s
    · have hk : ¬ k2 = k := fun q => hne ⟨hs, q⟩
      have hk2 : ¬ k = k2 := fun q => hk q.symm
      subst hs
      simp [setOpt, lookupOpt, hk2]
    · have hs2 : ¬ s = s2 := fun q => hs q.symm
      simp [setOpt, lookupOpt, hs2]
  | cons e rest ih =>
    unfold setOpt
    by_cases h : e.1 = s
    · rw [if_pos h]
      unfold lookupOpt
      by_cases hs : s2 = s
      · have hk : ¬ k2 = k := fun q => hne ⟨hs, q⟩
        rw [List.find?_cons_of_pos _ (by simp [h, hs]), List.find?_cons_of_pos _ (by simp [h, hs])]
        simp only
        rw [setOptInSection_find_other e.2 k v k2 hk]
      · have hes2 : ¬ e.1 = s2 := fun q => hs (by rw [← q] ; exact h)
        rw [List.find?_cons_of_neg _ (by simp [hes2]),
          List.find?_cons_of_neg _ (by simp [hes2])]
    · rw [if_neg h]
      unfold lookupOpt
      by_cases hs : e.1 = s2
      · rw [List.find?_cons_of_pos _ (by simp [hs]), List.find?_cons_of_pos _ (by simp [hs])]
      · rw [List.find?_cons_of_neg _ (by simp [hs]), List.find?_cons_of_neg _ (by simp [hs])]
        unfold lookupOpt at ih
        exact ih

theorem sectionContains_false_congr (reg : Registry) (c c2 : Config) (s n : String)
    (hd : lookupOpt c2.data s n = lookupOpt c.data s n) (hp : c2.parents = c.parents) :
    sectionContains reg c2 s n false = sectionContains reg c s n false := by
  cases c with
  | mk dc pc =>
    cases c2 with
    | mk dc2 pc2 =>
      rw [sectionContains_mk, sectionContains_mk]
      simp only [Config.data, Config.parents] at hd hp
      rw [hd, hp]

theorem setDefaults_fold_untouched (reg : Registry) (s n : String) (l : Registry) :
    ∀ acc : Config, (s, n) ∉ l.map (·.1) →
    lookupOpt ((l.foldl (fun acc e => setOptionDefault reg acc e.1.1 e.1.2 e.2.dflt) acc)).data s n
        = lookupOpt acc.data s n
    ∧ ((l.foldl (fun acc e => setOptionDefault reg acc e.1.1 e.1.2 e.2.dflt) acc)).parents
        = acc.parents := by
  induction l with
  | nil => intro acc _ ; exact ⟨rfl, rfl⟩
  | cons e rest ih =>
    intro acc hmem
    have hkey : ¬ (e.1.1 = s ∧ e.1.2 = n) := by
      intro ⟨h1, h2⟩
      exact hmem (by
        simp only [List.map_cons, List.mem_cons]
        exact Or.inl (by rw [← h1, ← h2]))
    have hrest : (s, n) ∉ rest.map (·.1) := fun q =>
      hmem (by simp only [List.map_cons, List.mem_cons] ; exact Or.inr q)
    simp only [List.foldl_cons]
    have hstep :
        lookupOpt (setOptionDefault reg acc e.1.1 e.1.2 e.2.dflt).data s n
            = lookupOpt acc.data s n
        ∧ (setOptionDefault reg acc e.1.1 e.1.2 e.2.dflt).parents = acc.parents := by
      unfold setOptionDefault
      by_cases hc : sectionContains reg acc e.1.1 e.1.2 false
      · rw [if_pos hc] ; exact ⟨rfl, rfl⟩
      · rw [if_neg hc]
        refine ⟨?_, rfl⟩
        simp only [Config.data]
        exact lookupOpt_setOpt_other acc.data e.1.1 e.1.2 e.2.dflt s n
          (fun ⟨q1, q2⟩ => hkey ⟨q1.symm, q2.symm⟩)
    obtain ⟨ha, hb⟩ := ih (setOptionDefault reg acc e.1.1 e.1.2 e.2.dflt) hrest
    exact ⟨ha.trans hstep.1, hb.trans hstep.2⟩

theorem setDefaults_fold_key (reg : Registry) (s n : String) (o : OptDesc) (l : Registry) :
    ∀ acc : Config, (l.map (·.1)).Nodup →
    (l.find? (fun e => e.1.1 = s && e.1.2 = n)).map (·.2) = some o →
    lookupOpt ((l.foldl (fun acc e => setOptionDefault reg acc e.1.1 e.1.2 e.2.dflt) acc)).data s n
        = (if sectionContains reg acc s n false then lookupOpt acc.data s n else some o.dflt)
    ∧ ((l.foldl (fun acc e => setOptionDefault reg acc e.1.1 e.1.2 e.2.dflt) acc)).parents
        = acc.parents := by
  induction l with
  | nil => intro acc _ hfind ; exact absurd hfind (by simp)
  | cons e rest ih =>
    intro acc hnd hfind
    simp only [List.foldl_cons]
    by_cases hp : e.1.1 = s ∧ e.1.2 = n
    · have hkey : e.1 = (s, n) := Prod.ext hp.1 hp.2
      have hfound : (List.find? (fun e => e.1.1 = s && e.1.2 = n) (e :: rest)) = some e :=
        List.find?_cons_of_pos _ (by simp [hp.1, hp.2])
      rw [hfound] at hfind
      have ho : e.2 = o := Option.some.inj hfind
      have hrest : (s, n) ∉ rest.map (·.1) := by
        rw [List.map_cons, List.nodup_cons] at hnd
        exact hkey ▸ hnd.1
      obtain ⟨ha, hb⟩ := setDefaults_fold_untouched reg s n rest
        (setOptionDefault reg acc e.1.1 e.1.2 e.2.dflt) hrest
      refine ⟨?_, ?_⟩
      · rw [ha]
        unfold setOptionDefault
        by_cases hc : sectionContains reg acc e.1.1 e.1.2 false
        · rw [if_pos hc]
          rw [hp.1, hp.2] at hc
          rw [if_pos hc]
        · rw [if_neg hc]
          have hc2 : ¬ sectionContains reg acc s n false = true := by
            rw [← hp.1, ← hp.2] ; exact hc
          rw [if_neg hc2]
          simp only [Config.data]
          rw [hp.1, hp.2, ho]
          exact lookupOpt_setOpt_self acc.data s n o.dflt
      · rw [hb]
        unfold setOptionDefault
        by_cases hc : sectionContains reg acc e.1.1 e.1.2 false
        · rw [if_pos hc]
        · rw [if_neg hc]
          rfl
    · have hfind2 : (List.find? (fun e => e.1.1 = s && e.1.2 = n) (e :: rest)) =
          List.find? (fun e => e.1.1 = s && e.1.2 = n) rest :=
        List.find?_cons_of_neg _ (by
          simp only [Bool.and_eq_true, decide_eq_true_eq]
          exact hp)
      rw [hfind2] at hfind
      have hnd2 : (rest.map (·.1)).Nodup := by
        rw [List.map_cons, List.nodup_cons] at hnd
        exact hnd.2
      have hstep :
          lookupOpt (setOptionDefault reg acc e.1.1 e.1.2 e.2.dflt).data s n
              = lookupOpt acc.data s n
          ∧ (setOptionDefault reg acc e.1.1 e.1.2 e.2.dflt).parents = acc.parents := by
        unfold setOptionDefault
        by_cases hc : sectionContains reg acc e.1.1 e.1.2 false
        · rw [if_pos hc] ; exact ⟨rfl, rfl⟩
        · rw [if_neg hc]
          refine ⟨?_, rfl⟩
          simp only [Config.data]
          exact lookupOpt_setOpt_other acc.data e.1.1 e.1.2 e.2.dflt s n
            (fun ⟨q1, q2⟩ => hp ⟨q1.symm, q2.symm⟩)
      obtain ⟨ha, hb⟩ := ih (setOptionDefault reg acc e.1.1 e.1.2 e.2.dflt) hnd2 hfind
      have hcong : sectionContains reg (setOptionDefault reg acc e.1.1 e.1.2 e.2.dflt) s n false
          = sectionContains reg acc s n false :=
        sectionContains_false_congr reg acc _ s n hstep.1 hstep.2
      refine ⟨?_, hb.trans hstep.2⟩
      rw [ha, hcong, hstep.1]

/-- C4 (amended).  set_defaults writes the registered default of (s, n)
into the store exactly when neither the own file nor any parent store
(recursively, through own files only) defines (s, n): the guard is
has_option(section, name, defaults=False), which does consult the parents.
The original claim asserted that parents are ignored so parent-only keys
are still written; the counterexample shows they are skipped. -/
theorem C4_set_defaults (reg : Registry) (c : Config) (s n : String) (o : OptDesc)
    (hnd : (reg.map (·.1)).Nodup) (hro : lookupReg reg s n = some o) :
    lookupOpt (configurationSetDefaults reg c).data s n =
      (if sectionContains reg c s n false then lookupOpt c.data s n else some o.dflt) := by
  unfold configurationSetDefaults
  exact (setDefaults_fold_key reg s n o reg c hnd hro).1

/-- Witness for C4: with the base Option ("a", "k") registered with default
d and a store defining nothing, set_defaults writes d. -/
theorem C4_set_defaults_witness :
    lookupOpt (configurationSetDefaults [(("a", "k"), ⟨"d", fun v => v⟩)] (.mk [] [])).data
      "a" "k" = some "d" := by
  have h := C4_set_defaults [(("a", "k"), ⟨"d", fun v => v⟩)] (.mk [] []) "a" "k"
    ⟨"d", fun v => v⟩ (by simp) rfl
  rw [h]
  rw [if_neg (by decide)]

/-- Counterexample to C4 as stated.  The Option ("a", "k") is registered
with default d; the store's own file defines nothing but its parent file
holds [a] k = pv.  The claim says the key is defined only in a parent so
the default is still written; set_defaults skips it because
has_option(..., defaults=False) sees the parent, and the own file still
does not define ("a", "k") afterwards. -/
theorem C4_counterexample :
    lookupOpt (Config.mk [] [.mk [("a", [("k", "pv")])] []]).data "a" "k" = none
    ∧ lookupOpt (configurationSetDefaults [(("a", "k"), ⟨"d", fun v => v⟩)]
        (.mk [] [.mk [("a", [("k", "pv")])] []])).data "a" "k" = none := by
  exact ⟨by decide, by decide⟩

/-- C5 (amended).  When the effective value is nonempty and does not parse,
getint raises a ConfigurationError whose message names the section, the key
and the repr of the offending value, and the same holds for getfloat; but
an empty effective value is silently coerced (int(value or 0)) to 0 by
getint and to 0.0 by getfloat instead of raising.  The original claim
asserted that an empty value also raises and that 0 is never silently
returned; the counterexample refutes that part. -/
theorem C5_getint_getfloat_errors (reg : Registry) (c : Config) (s k d : String) :
    (pyGetint (configGet reg c s k d) = none →
      sectionGetint reg c s k d = .error ⟨intErrMsg s k (configGet reg c s k d)⟩)
    ∧ (configGet reg c s k d = "" → sectionGetint reg c s k d = .ok 0)
    ∧ (pyGetfloat (configGet reg c s k d) = none →
      sectionGetfloat reg c s k d = .error ⟨floatErrMsg s k (configGet reg c s k d)⟩)
    ∧ (configGet reg c s k d = "" → sectionGetfloat reg c s k d = .ok ⟨true⟩) := by
  refine ⟨?_, ?_, ?_, ?_⟩
  · intro h
    unfold sectionGetint
    simp only [h]
  · intro h
    unfold sectionGetint
    simp only [h]
    rfl
  · intro h
    unfold sectionGetfloat
    simp only [h]
  · intro h
    unfold sectionGetfloat
    simp only [h]
    rfl

/-- Witness for C5: on a store holding [a] k = abc, getint fails with the
message naming section a, key k and value abc; on a store holding
[a] k = 1x, getfloat fails likewise. -/
theorem C5_getint_getfloat_errors_witness :
    sectionGetint [] (.mk [("a", [("k", "abc")])] []) "a" "k" "z"
      = .error ⟨intErrMsg "a" "k" "abc"⟩
    ∧ sectionGetfloat [] (.mk [("a", [("k", "1x")])] []) "a" "k" "z"
      = .error ⟨floatErrMsg "a" "k" "1x"⟩ := by
  constructor
  · have h := (C5_getint_getfloat_errors [] (.mk [("a", [("k", "abc")])] []) "a" "k" "z").1
      (by decide)
    rw [h]
    rfl
  · have h := (C5_getint_getfloat_errors [] (.mk [("a", [("k", "1x")])] []) "a" "k" "z").2.2.1
      (by decide)
    rw [h]
    rfl

/-- Counterexample to C5 as stated.  A store holding [a] k with the empty
value: the empty string cannot be parsed as an integer, so the claim
requires a ConfigurationError, but getint returns 0 and getfloat returns
0.0 because _getint computes int(value or 0). -/
theorem C5_counterexample :
    sectionGetint [] (.mk [("a", [("k", "")])] []) "a" "k" "z" = .ok 0
    ∧ sectionGetfloat [] (.mk [("a", [("k", "")])] []) "a" "k" "z" = .ok ⟨true⟩ := by
  exact ⟨rfl, rfl⟩

/-- C6 (amended).  For a string value: a true word (after strip and
lowercase) yields True and a false word yields False - such words never
parse as floats, so the order of the checks does not matter; a value the
float constructor accepts yields its numeric truthiness; any other string
yields False, the unforwarded default of as_bool - not the caller default,
which the original claim asserted.  The caller default becomes the
effective value only when the key resolves nowhere, and getbool then
converts it with Python bool truthiness. -/
theorem C6_getbool_truthiness (reg : Registry) (c : Config) (s k : String)
    (dv : PyVal) (v : String) (d : Bool) :
    (pyLower (pyStrip v) = "yes" ∨ pyLower (pyStrip v) = "true"
        ∨ pyLower (pyStrip v) = "enabled" ∨ pyLower (pyStrip v) = "on" →
      as_bool (.pstr v) d = true)
    ∧ (pyLower (pyStrip v) = "no" ∨ pyLower (pyStrip v) = "false"
        ∨ pyLower (pyStrip v) = "disabled" ∨ pyLower (pyStrip v) = "off" →
      as_bool (.pstr v) d = false)
    ∧ (∀ f, pyFloatParse v = some f → as_bool (.pstr v) d = !f.isZero)
    ∧ (pyFloatParse v = none →
        ¬ (pyLower (pyStrip v) = "yes" ∨ pyLower (pyStrip v) = "true"
            ∨ pyLower (pyStrip v) = "enabled" ∨ pyLower (pyStrip v) = "on") →
        ¬ (pyLower (pyStrip v) = "no" ∨ pyLower (pyStrip v) = "false"
            ∨ pyLower (pyStrip v) = "disabled" ∨ pyLower (pyStrip v) = "off") →
      as_bool (.pstr v) d = d)
    ∧ sectionGetbool reg c s k dv = as_bool (configGetVal reg c s k dv) false
    ∧ (∀ b, configGetVal reg c s k (.pbool b) = .pbool b → sectionGetbool reg c s k (.pbool b) = b) := by
  refine ⟨?_, ?_, ?_, ?_, rfl, ?_⟩
  · intro h
    have hf : pyFloatParse v = none := by
      unfold pyFloatParse
      rcases h with h | h | h | h <;> rw [h] <;> decide
    unfold as_bool
    try simp only
    rw [hf]
    rw [if_pos h]
  · intro h
    have hf : pyFloatParse v = none := by
      unfold pyFloatParse
      rcases h with h | h | h | h <;> rw [h] <;> decide
    have hnt : ¬ (pyLower (pyStrip v) = "yes" ∨ pyLower (pyStrip v) = "true"
        ∨ pyLower (pyStrip v) = "enabled" ∨ pyLower (pyStrip v) = "on") := by
      rcases h with h | h | h | h <;> rw [h] <;> decide
    unfold as_bool
    try simp only
    rw [hf]
    rw [if_neg hnt, if_pos h]
  · intro f hf
    unfold as_bool
    try simp only
    rw [hf]
  · intro hf hnt hnf
    unfold as_bool
    try simp only
    rw [hf]
    rw [if_neg hnt, if_neg hnf]
  · intro b hb
    unfold sectionGetbool
    rw [hb]
    cases b <;> rfl

/-- Witness for C6: the stored value Yes resolves to True through the word
list, the stored value 2.5 through float truthiness, and a missing key with
bool default True converts to True. -/
theorem C6_getbool_truthiness_witness :
    as_bool (.pstr " Yes ") false = true
    ∧ as_bool (.pstr "2.5") true = true
    ∧ sectionGetbool [] (.mk [] []) "a" "k" (.pbool true) = true := by
  refine ⟨?_, ?_, ?_⟩
  · exact (C6_getbool_truthiness [] (.mk [] []) "a" "k" (.pbool true) " Yes " false).1
      (by decide)
  · have h := (C6_getbool_truthiness [] (.mk [] []) "a" "k" (.pbool true) "2.5" true).2.2.1
      ⟨false⟩ (by decide)
    rw [h]
    rfl
  · exact (C6_getbool_truthiness [] (.mk [] []) "a" "k" (.pbool true) "x" false).2.2.2.2.2
      true (by decide)

/-- Counterexample to C6 as stated.  A store holding [a] k = maybe and a
getbool call with caller default True: maybe is neither a word of the lists
nor a float literal, so the claim requires the caller default converted to
a bool, True; the code returns False because getbool never forwards its
caller default to the default parameter of as_bool. -/
theorem C6_counterexample :
    sectionGetbool [] (.mk [("a", [("k", "maybe")])] []) "a" "k" (.pbool true) = false := by
  decide

/-- C7 (amended).  getlist splits the stored value on the separator (an
alternation when several are given), strips whitespace from every item, and
when keep_empty is not requested drops the empty items: the dropping mode
is exactly a filter of the keeping mode, an empty item never survives it,
and every returned item is the strip of one segment of the split.  However
the two public entry points disagree on the default: Configuration.getlist
drops empty items by default, while Section.getlist keeps them by default
(its keep_empty defaults to True), against the original claim that calling
getlist without specifying keep_empty always drops them (see the
counterexample). -/
theorem C7_getlist (reg : Registry) (c : Config) (s k v : String) (sep : SepArg) :
    (pyGetlist v sep false = (pyGetlist v sep true).filter (fun i => !(i = "")))
    ∧ ¬ ("" ∈ pyGetlist v sep false)
    ∧ (∀ keep : Bool, ∀ i ∈ pyGetlist v sep keep, ∃ seg ∈ splitArg sep v, i = pyStrip seg)
    ∧ configurationGetlistDefault reg c s k
        = pyGetlist (configGet reg c s k "") (.single ",") false
    ∧ sectionGetlistDefault reg c s k
        = pyGetlist (configGet reg c s k "") (.single ",") true := by
  refine ⟨?_, ?_, ?_, rfl, rfl⟩
  · by_cases hv : v = "" <;> simp [pyGetlist, hv]
  · by_cases hv : v = "" <;> simp [pyGetlist, hv, List.mem_filter]
  · intro keep i hi
    unfold pyGetlist at hi
    by_cases hv : v = ""
    · rw [if_pos hv] at hi
      exact absurd hi (by simp)
    · rw [if_neg hv] at hi
      simp only at hi
      have hmem : i ∈ (splitArg sep v).map pyStrip := by
        cases keep with
        | true => simpa using hi
        | false =>
          have h2 : (∃ a ∈ splitArg sep v, pyStrip a = i) ∧ ¬ i = "" := by simpa using hi
          exact List.mem_map.mpr h2.1
      obtain ⟨seg, hseg, hstr⟩ := List.mem_map.mp hmem
      exact ⟨seg, hseg, hstr.symm⟩

/-- Witness for C7: on the value a ,,b with separator comma, the dropping
mode is the filter of the keeping mode, and the item a is the strip of the
first segment. -/
theorem C7_getlist_witness :
    (pyGetlist "a ,,b" (.single ",") false
      = (pyGetlist "a ,,b" (.single ",") true).filter (fun i => !(i = "")))
    ∧ (∃ seg ∈ splitArg (.single ",") "a ,,b", "a" = pyStrip seg) := by
  constructor
  · exact (C7_getlist [] (.mk [] []) "s" "k" "a ,,b" (.single ",")).1
  · exact (C7_getlist [] (.mk [] []) "s" "k" "a ,,b" (.single ",")).2.2.1 true "a" (by decide)

/-- Counterexample to C7 as stated.  A store holding [a] k = a,,b: calling
Section.getlist without specifying keep_empty keeps the empty middle item,
while Configuration.getlist drops it - so getlist called without
keep_empty does not always drop empty items. -/
theorem C7_counterexample :
    sectionGetlistDefault [] (.mk [("a", [("k", "a,,b")])] []) "a" "k" = ["a", "", "b"]
    ∧ configurationGetlistDefault [] (.mk [("a", [("k", "a,,b")])] []) "a" "k" = ["a", "b"] := by
  exact ⟨by decide, by decide⟩

/-- C8.  Evaluation of the ordered extensions read at the failing input:
with stored order ImplB, ImplA and enabled implementers ImplA and ImplB,
include_missing true returns the components sorted alphabetically by class
name - ImplA before ImplB - not in the stored order ImplB first that the
claim and the docstring of the class require; the missing name branch and
the include_missing false filter behave as claimed. -/
theorem C8_ordered_extensions_eval :
    orderedExtensionsGet ["ImplB", "ImplA"] ["ImplA", "ImplB"] true = .ok ["ImplA", "ImplB"]
    ∧ (["ImplA", "ImplB"] : List String) ≠ ["ImplB", "ImplA"]
    ∧ orderedExtensionsGet ["ImplC"] ["ImplA", "ImplB"] true = .error ["ImplC"]
    ∧ orderedExtensionsGet ["ImplB"] ["ImplA", "ImplB"] false = .ok ["ImplB"] := by
  refine ⟨by rfl, by decide, by rfl, by rfl⟩

/-- C9 (amended).  For an enabled class with no pooled instance that is not
a manager subclass: when the class is not registered, __getitem__ raises
the generic PlumbumError naming the class as not registered; when
instantiation raises a TypeError, it is wrapped into a PlumbumError
mentioning the class and the cause; but any exception that is not a
TypeError propagates unwrapped - the original claim asserted that every
instantiation exception is wrapped, and it also named dedicated
ComponentNotRegistered and ComponentInstantiationError classes which do not
exist: both failures raise the generic PlumbumError. -/
theorem C9_getitem_failures (policy : String → Bool) (instantiate : String → Except PyErr String)
    (isMgrSub : String → Bool) (st : MgrState) (cls : String)
    (henb : managerIsEnabled policy st cls = true)
    (hstored : storedComponent st cls = none)
    (hmgr : isMgrSub cls = false) :
    (st.registered.contains cls = false →
      managerGetItem policy instantiate isMgrSub st cls
        = .error (.plumbumErr ("Component \"" ++ cls ++ "\" not registered")))
    ∧ (∀ e, st.registered.contains cls = true → instantiate cls = .error (.typeErr e) →
      managerGetItem policy instantiate isMgrSub st cls
        = .error (.plumbumErr ("Unable to instantiate component " ++ cls ++ " (" ++ e ++ ")")))
    ∧ (∀ e, st.registered.contains cls = true → instantiate cls = .error (.valueErr e) →
      managerGetItem policy instantiate isMgrSub st cls = .error (.valueErr e)) := by
  refine ⟨?_, ?_, ?_⟩
  · intro hreg
    unfold managerGetItem
    rw [henb, hstored]
    simp only [hmgr, hreg]
    rfl
  · intro e hreg hinst
    unfold managerGetItem
    rw [henb, hstored]
    simp only [hmgr, hreg, hinst]
    rfl
  · intro e hreg hinst
    unfold managerGetItem
    rw [henb, hstored]
    simp only [hmgr, hreg, hinst]
    rfl

/-- Witness for C9: with a trivially true policy and empty pool, an
unregistered class C raises the not-registered PlumbumError, and a
registered class whose constructor raises a TypeError raises the wrapped
PlumbumError. -/
theorem C9_getitem_failures_witness :
    managerGetItem (fun _ => true) (fun _ => .error (.typeErr "boom")) (fun _ => false)
      ⟨[], [], []⟩ "C" = .error (.plumbumErr "Component \"C\" not registered")
    ∧ managerGetItem (fun _ => true) (fun _ => .error (.typeErr "boom")) (fun _ => false)
      ⟨[], [], ["C"]⟩ "C"
        = .error (.plumbumErr "Unable to instantiate component C (boom)") := by
  constructor
  · exact (C9_getitem_failures (fun _ => true) (fun _ => .error (.typeErr "boom"))
      (fun _ => false) ⟨[], [], []⟩ "C" rfl rfl rfl).1 rfl
  · exact (C9_getitem_failures (fun _ => true) (fun _ => .error (.typeErr "boom"))
      (fun _ => false) ⟨[], [], ["C"]⟩ "C" rfl rfl rfl).2.1 "boom" rfl rfl

/-- Counterexample to C9 as stated.  A registered, enabled class whose
constructor raises a ValueError: the claim requires the error to surface
wrapped in the component-instantiation error, but __getitem__ catches only
TypeError, so the ValueError propagates unwrapped. -/
theorem C9_counterexample :
    managerGetItem (fun _ => true) (fun _ => .error (.valueErr "boom")) (fun _ => false)
      ⟨[], [], ["C"]⟩ "C" = .error (.valueErr "boom") := by
  rfl

theorem lookupOpt_setOpt_isSome (d : ParserData) (s k s2 k2 v2 : String)
    (h : (lookupOpt d s k).isSome) : (lookupOpt (setOpt d s2 k2 v2) s k).isSome := by
  by_cases he : s = s2 ∧ k = k2
  · rw [he.1, he.2, lookupOpt_setOpt_self]
    rfl
  · rw [lookupOpt_setOpt_other d s2 k2 v2 s k he]
    exact h

theorem readMerge_section_isSome (s2 : String) (opts : OptionsData) (s k : String) :
    ∀ d : ParserData, (lookupOpt d s k).isSome →
    (lookupOpt (opts.foldl (fun acc2 o => setOpt acc2 s2 o.1 o.2) d) s k).isSome := by
  induction opts with
  | nil => intro d h ; exact h
  | cons o rest ih =>
    intro d h
    simp only [List.foldl_cons]
    exact ih (setOpt d s2 o.1 o.2) (lookupOpt_setOpt_isSome d s k s2 o.1 o.2 h)

theorem readMerge_isSome (file : ParserData) (s k : String) :
    ∀ d : ParserData, (lookupOpt d s k).isSome → (lookupOpt (readMerge d file) s k).isSome := by
  induction file with
  | nil => intro d h ; exact h
  | cons e rest ih =>
    intro d h
    unfold readMerge
    simp only [List.foldl_cons]
    have h2 := readMerge_section_isSome e.1 e.2 s k d h
    unfold readMerge at ih
    exact ih _ h2

theorem readMerge_section_untouched (s2 : String) (opts : OptionsData) (s k : String)
    (hout : ∀ o ∈ opts, ¬ (s2 = s ∧ o.1 = k)) :
    ∀ d : ParserData, lookupOpt (opts.foldl (fun acc2 o => setOpt acc2 s2 o.1 o.2) d) s k
      = lookupOpt d s k := by
  induction opts with
  | nil => intro d ; rfl
  | cons o rest ih =>
    intro d
    simp only [List.foldl_cons]
    rw [ih (fun q hq => hout q (List.mem_cons_of_mem o hq)) (setOpt d s2 o.1 o.2)]
    exact lookupOpt_setOpt_other d s2 o.1 o.2 s k
      (fun ⟨q1, q2⟩ => hout o (List.mem_cons_self o rest) ⟨q1.symm, q2.symm⟩)

theorem readMerge_untouched (file : ParserData) (s k : String)
    (hout : ∀ e ∈ file, ∀ o ∈ e.2, ¬ (e.1 = s ∧ o.1 = k)) :
    ∀ d : ParserData, lookupOpt (readMerge d file) s k = lookupOpt d s k := by
  induction file with
  | nil => intro d ; rfl
  | cons e rest ih =>
    intro d
    unfold readMerge
    simp only [List.foldl_cons]
    unfold readMerge at ih
    rw [ih (fun q hq => hout q (List.mem_cons_of_mem e hq)) _]
    exact readMerge_section_untouched e.1 e.2 s k
      (fun o ho => hout e (List.mem_cons_self e rest) o ho) d

theorem removeOpt_lookup_self (d : ParserData) (s k : String) :
    lookupOpt (removeOpt d s k) s k = none := by
  induction d with
  | nil => rfl
  | cons e rest ih =>
    unfold removeOpt at ih ⊢
    simp only [List.map_cons]
    unfold lookupOpt
    by_cases hs : e.1 = s
    · rw [if_pos hs]
      rw [List.find?_cons_of_pos _ (by simp [hs])]
      simp only
      rw [List.find?_eq_none.mpr ?_]
      · rfl
      · intro o ho
        have hmem := (List.mem_filter.mp ho).2
        simp only [Bool.not_eq_true] at hmem
        simp only [decide_eq_true_eq]
        intro hq
        rw [hq] at hmem
        simp at hmem
    · rw [if_neg hs]
      rw [List.find?_cons_of_neg _ (by simp [hs])]
      unfold lookupOpt at ih
      exact ih

/-- C10.  Reparsing a changed file merges it into the same parser object:
every (section, key) present in the parsed data of a store before the merge
is still present afterwards; when the on-disk file no longer mentions the
pair at all - in particular when the key was deleted from the file - its
old value is fully preserved; and an explicit remove() does delete the
pair.  Together these show own parsed entries survive every reparse and are
removed only by remove(). -/
theorem C10_reparse_preserves (d file : ParserData) (s k v : String)
    (h : lookupOpt d s k = some v) :
    (lookupOpt (readMerge d file) s k).isSome
    ∧ ((∀ e ∈ file, ∀ o ∈ e.2, ¬ (e.1 = s ∧ o.1 = k)) →
        lookupOpt (readMerge d file) s k = some v)
    ∧ lookupOpt (removeOpt d s k) s k = none := by
  refine ⟨?_, ?_, removeOpt_lookup_self d s k⟩
  · exact readMerge_isSome file s k d (by rw [h] ; rfl)
  · intro hout
    rw [readMerge_untouched file s k hout d, h]

/-- Witness for C10: the entry [a] k = old survives a merge of a file that
redefines it (updated) and a merge of a file that no longer has it (old
value kept), and remove deletes it. -/
theorem C10_reparse_preserves_witness :
    (lookupOpt (readMerge [("a", [("k", "old")])] [("a", [("k", "new")])]) "a" "k").isSome
    ∧ lookupOpt (readMerge [("a", [("k", "old")])] [("b", [("x", "1")])]) "a" "k" = some "old"
    ∧ lookupOpt (removeOpt [("a", [("k", "old")])] "a" "k") "a" "k" = none := by
  refine ⟨?_, ?_, ?_⟩
  · exact (C10_reparse_preserves [("a", [("k", "old")])] [("a", [("k", "new")])]
      "a" "k" "old" rfl).1
  · exact (C10_reparse_preserves [("a", [("k", "old")])] [("b", [("x", "1")])]
      "a" "k" "old" rfl).2.1 (by decide)
  · exact (C10_reparse_preserves [("a", [("k", "old")])] [] "a" "k" "old" rfl).2.2
